import Mathlib

/-!
Verification development for the `shifts` motion-prediction data pipeline.

The embedding covers:
* `ysdc_dataset_api/dataset/dataset.py` — the `MotionPredictionDataset`
  driver: scene-tag filtering (`filter_paths`), worker sharding
  (`split_filepaths_by_worker`), and the per-request iteration loop
  (`data_gen`), together with the Python `dict` semantics used to
  assemble each yielded example.
* `sdc/constants.py` — the shipped `RENDERER_CONFIG` literal.
* The external collaborators imported from `ysdc_dataset_api.utils` and
  `ysdc_dataset_api.proto` (request validation, agent-frame transforms,
  tag extraction) are not part of the provided sources; they are
  modelled from the specification, and each such definition is marked
  `Modelled from the spec:` in its doc comment.

Machine arithmetic: Python integers are unbounded, so `Nat`/`Int` model
them directly; coordinates are modelled as `ℚ`.  Fallible Python code
(exceptions from `range`, list indexing, JSON parsing) is modelled with
`Except`.
-/

set_option autoImplicit false

namespace Shifts

/-- Decidable equality for `Except`, so that concrete outcomes of the
embedded fallible operations can be checked by evaluation. -/
instance instDecidableEqExcept {E A : Type} [DecidableEq E] [DecidableEq A] :
    DecidableEq (Except E A)
  | .error e, .error e' =>
      if h : e = e' then .isTrue (by rw [h]) else .isFalse (by simp [h])
  | .error _, .ok _ => .isFalse (by simp)
  | .ok _, .error _ => .isFalse (by simp)
  | .ok a, .ok a' =>
      if h : a = a' then .isTrue (by rw [h]) else .isFalse (by simp [h])

/-! ### Python `dict` semantics

A Python `dict` is modelled as an association list in insertion order.
`pyDictInsert` implements `d[k] = v`: an existing key keeps its
position and gets the new value, a new key is appended.  `pyDictUpdate`
implements `d.update(other)`, and `pyDictGet` implements `d[k]`
lookup (as an `Option`). -/

def pyDictInsert {V : Type} (d : List (String × V)) (k : String) (v : V) :
    List (String × V) :=
  if d.any (fun p => p.1 == k) then
    d.map (fun p => if p.1 == k then (k, v) else p)
  else
    d ++ [(k, v)]

def pyDictUpdate {V : Type} (d other : List (String × V)) : List (String × V) :=
  other.foldl (fun acc p => pyDictInsert acc p.1 p.2) d

def pyDictGet {V : Type} (d : List (String × V)) (k : String) : Option V :=
  (d.find? (fun p => p.1 == k)).map (fun p => p.2)

/-- Python list slicing `l[start:stop]` for non-negative bounds:
out-of-range bounds clamp instead of failing. -/
def pySlice {α : Type} (l : List α) (start stop : Nat) : List α :=
  (l.drop start).take (stop - start)

/-- Python `list(range(0, stop, step))` for `step ≥ 1`: the multiples of
`step` below `stop`, in increasing order. -/
def rangeStep0 (stop step : Nat) : List Nat :=
  (List.range ((stop + step - 1) / step)).map (fun k => k * step)

/-! ### Data model

Modelled from the spec (§3): the protobuf scene decoding lives outside
the provided sources, so scenes, tracks and prediction requests are
embedded as plain structures. -/

/-- Modelled from the spec: one per-timestamp agent state of a track —
position, yaw (kept as the cosine/sine pair of the heading angle) and
the existence flag.  The trigonometric pair replaces the angle so that
the embedding stays executable; a genuine heading satisfies
`yaw_c ^ 2 + yaw_s ^ 2 = 1`. -/
structure AgentState where
  px : ℚ
  py : ℚ
  yaw_c : ℚ
  yaw_s : ℚ
  present : Bool
deriving DecidableEq, Repr

/-- Modelled from the spec: a track is an ordered sequence of
per-timestamp states for one agent; index `0` is the prediction time
and later indices are the future states. -/
structure Track where
  track_id : Nat
  states : List AgentState
deriving DecidableEq, Repr

/-- Modelled from the spec: a prediction request references a track id
and carries trajectory tags drawn from a fixed vocabulary. -/
structure PredictionRequest where
  track_id : Nat
  trajectory_tags : List String
deriving DecidableEq, Repr

/-- Modelled from the spec: a scene holds its prediction requests and
its agent tracks (road graph and metadata are not needed by the
claims). -/
structure Scene where
  prediction_requests : List PredictionRequest
  tracks : List Track
deriving DecidableEq, Repr

/-- Modelled from the spec: the external tag extractor
`get_tags_from_request` returns the request's trajectory-tag set. -/
def get_tags_from_request (r : PredictionRequest) : List String :=
  r.trajectory_tags

/-- Track lookup by id inside a scene (first track with the id). -/
def findTrack (scene : Scene) (tid : Nat) : Option Track :=
  scene.tracks.find? (fun t => t.track_id == tid)

/-- Modelled from the spec: `get_gt_trajectory` returns the positions of
the track's defined future states (offsets `≥ 1`), in time order. -/
def get_gt_trajectory (scene : Scene) (tid : Nat) : List (ℚ × ℚ) :=
  match findTrack scene tid with
  | none => []
  | some track =>
      ((track.states.drop 1).filter (fun st => st.present)).map
        (fun st => (st.px, st.py))

/-- Modelled from the spec: `request_is_valid` — the referenced track
exists, has a defined state at offset 0, and has at least one defined
future state. -/
def request_is_valid (scene : Scene) (r : PredictionRequest) : Bool :=
  match findTrack scene r.track_id with
  | none => false
  | some track =>
      (match track.states.get? 0 with
       | some st => st.present
       | none => false)
      && !(get_gt_trajectory scene r.track_id).isEmpty

/-- The default agent state (origin, identity heading, present), used
only to totalise lookups that the driver performs after validation. -/
def defaultAgentState : AgentState :=
  { px := 0, py := 0, yaw_c := 1, yaw_s := 0, present := true }

/-- Modelled from the spec: `get_track_for_transform` returns the
track referenced by the request; the driver only calls it after
`request_is_valid`, so the fallback empty track is never reached on the
driver's path. -/
def get_track_for_transform (scene : Scene) (tid : Nat) : Track :=
  (findTrack scene tid).getD { track_id := tid, states := [] }

/-! ### Frame transform engine

Modelled from the spec (§4.3): `ysdc_dataset_api.utils` is not in the
provided sources. -/

/-- Modelled from the spec: a rigid 2D transform.  The linear part is
the rotation-like matrix `[[c, -s], [s, c]]`, followed by the
translation `(tx, ty)`; a genuine rotation satisfies
`c ^ 2 + s ^ 2 = 1`. -/
structure Transform2D where
  c : ℚ
  s : ℚ
  tx : ℚ
  ty : ℚ
deriving DecidableEq, Repr

/-- Apply a transform to one 2D point: rotation then translation. -/
def applyTf (T : Transform2D) (p : ℚ × ℚ) : ℚ × ℚ :=
  (T.c * p.1 - T.s * p.2 + T.tx, T.s * p.1 + T.c * p.2 + T.ty)

/-- Modelled from the spec: the inverse transform — transpose of the
linear part, with the matching translation. -/
def inverseTf (T : Transform2D) : Transform2D :=
  { c := T.c
    s := -T.s
    tx := -(T.c * T.tx + T.s * T.ty)
    ty := -(-T.s * T.tx + T.c * T.ty) }

/-- The state of a track at offset 0 (prediction time). -/
def state0 (track : Track) : AgentState :=
  track.states.getD 0 defaultAgentState

/-- Modelled from the spec: `get_to_track_frame_transform` builds the
agent-frame transform from the track's snapshot at offset 0 — rotate by
the negative of the yaw and translate the prediction-time position to
the origin. -/
def get_to_track_frame_transform (track : Track) : Transform2D :=
  let st := state0 track
  { c := st.yaw_c
    s := -st.yaw_s
    tx := -(st.yaw_c * st.px + st.yaw_s * st.py)
    ty := -(-st.yaw_s * st.px + st.yaw_c * st.py) }

/-- Modelled from the spec: `transform2dpoints` applies a transform to
every point of a sequence, preserving order and count. -/
def transform2dpoints (points : List (ℚ × ℚ)) (tf : Transform2D) :
    List (ℚ × ℚ) :=
  points.map (applyTf tf)

/-! ### Scene tag index (`MotionPredictionDataset._filter_paths`) -/

/-- The error outcomes of `_filter_paths`: a propagated tag-record parse
failure (`json.loads`), or a Python `IndexError` from `file_paths[i]`. -/
inductive FilterError (E : Type) where
  | parseError : E → FilterError E
  | indexError : Nat → FilterError E
deriving DecidableEq, Repr

/-- The enumeration loop of `_filter_paths`: parse each tag line in
order, recording the indices accepted by the scene-tag filter; the
first parse failure aborts the whole loop.  `parse` stands for the
external `json.loads(line.strip())` step as one opaque operation. -/
def collectValidIndices {T E : Type} (parse : String → Except E T)
    (filt : T → Bool) : List String → Nat → Except E (List Nat)
  | [], _ => .ok []
  | line :: rest, i =>
      match parse line with
      | .error e => .error e
      | .ok tags =>
          match collectValidIndices parse filt rest (i + 1) with
          | .error e => .error e
          | .ok idxs => .ok (if filt tags then i :: idxs else idxs)

/-- The list comprehension `[file_paths[i] for i in valid_indices]`:
index the path list at each collected index in order; the first
out-of-range index raises `IndexError`. -/
def buildFilteredList {E : Type} (file_paths : List String) :
    List Nat → Except (FilterError E) (List String)
  | [] => .ok []
  | i :: rest =>
      match file_paths.get? i with
      | some p =>
          match buildFilteredList file_paths rest with
          | .ok ps => .ok (p :: ps)
          | .error e => .error e
      | none => .error (.indexError i)

/-- `MotionPredictionDataset._filter_paths`: collect the indices of tag
records accepted by the scene-tag filter, then index the path list at
each of them. -/
def filter_paths {T E : Type} (parse : String → Except E T)
    (scene_tags_filter : T → Bool) (file_paths : List String)
    (tagLines : List String) : Except (FilterError E) (List String) :=
  match collectValidIndices parse scene_tags_filter tagLines 0 with
  | .error e => .error (.parseError e)
  | .ok valid_indices => buildFilteredList file_paths valid_indices

/-- `_trivial_filter`: accepts everything. -/
def trivial_filter {T : Type} (_x : T) : Bool :=
  true

/-- `_callable_or_trivial_filter`: a missing predicate defaults to the
trivial one.  (The `ValueError` branch for non-callables cannot arise in
the typed embedding.) -/
def callable_or_trivial_filter {T : Type} (f : Option (T → Bool)) :
    T → Bool :=
  match f with
  | none => trivial_filter
  | some g => g

/-! ### Worker sharding (`_split_filepaths_by_worker`) -/

/-- The error outcomes of `_split_filepaths_by_worker`: Python's
`ZeroDivisionError` from `n // 0`, `ValueError` from
`range(0, n, 0)`, and `IndexError` from `split[i]`. -/
inductive ShardError where
  | zeroDivision
  | zeroStep
  | indexOutOfRange : Nat → ShardError
deriving DecidableEq, Repr

/-- `MotionPredictionDataset._split_filepaths_by_worker`:
`chunk = N // W`, `split = list(range(0, N, chunk))`, worker `w` takes
`paths[split[w] : split[w+1]]` and the last worker takes
`paths[split[W-1] : N]`. -/
def split_filepaths_by_worker (paths : List String)
    (worker_id num_workers : Nat) : Except ShardError (List String) :=
  if num_workers = 0 then .error .zeroDivision
  else
    let n := paths.length
    let chunk := n / num_workers
    if chunk = 0 then .error .zeroStep
    else
      let split := rangeStep0 n chunk
      match split.get? worker_id with
      | none => .error (.indexOutOfRange worker_id)
      | some start =>
          if worker_id = num_workers - 1 then .ok (pySlice paths start n)
          else
            match split.get? (worker_id + 1) with
            | none => .error (.indexOutOfRange (worker_id + 1))
            | some stop => .ok (pySlice paths start stop)

/-! ### The iteration driver (`__iter__` / `data_gen`) -/

/-- The example value type: every value in a yielded mapping is a point
sequence (the ground-truth trajectory, and the feature payloads as
opaque point lists). -/
abbrev ExampleValue : Type := List (ℚ × ℚ)

/-- The body of `data_gen` for one valid request: compute the track,
the agent-frame transform and the ground-truth trajectory, optionally
transform the trajectory to the agent frame, then build
`result = {'ground_truth_trajectory': ...}` and merge the feature
producer's entire output into it with `dict.update`. -/
def buildExample
    (feature_producer : Scene → Transform2D → List (String × ExampleValue))
    (transform_ground_truth_to_agent_frame : Bool)
    (scene : Scene) (request : PredictionRequest) :
    List (String × ExampleValue) :=
  let track := get_track_for_transform scene request.track_id
  let to_track_frame_tf := get_to_track_frame_transform track
  let gt0 := get_gt_trajectory scene request.track_id
  let ground_truth_trajectory :=
    if transform_ground_truth_to_agent_frame then
      transform2dpoints gt0 to_track_frame_tf
    else gt0
  pyDictUpdate [("ground_truth_trajectory", ground_truth_trajectory)]
    (feature_producer scene to_track_frame_tf)

/-- `data_gen`: iterate the scenes decoded from the shard's file paths
in order; for each scene iterate its requests in order, skipping a
request when `request_is_valid` rejects it or the trajectory-tags
filter rejects its tags, and yield one assembled example per surviving
request. -/
def data_gen (trajectory_tags_filter : List String → Bool)
    (feature_producer : Scene → Transform2D → List (String × ExampleValue))
    (transform_ground_truth_to_agent_frame : Bool)
    (loadScene : String → Scene) (file_paths : List String) :
    List (List (String × ExampleValue)) :=
  ((file_paths.map loadScene).map (fun scene =>
    scene.prediction_requests.filterMap (fun request =>
      if !(request_is_valid scene request) then none
      else
        if !(trajectory_tags_filter (get_tags_from_request request)) then none
        else
          some (buildExample feature_producer
            transform_ground_truth_to_agent_frame scene request)))).flatten

/-! ### Construction (`MotionPredictionDataset.__init__`) -/

/-- The dataset state retained after construction: the effective scene
file paths plus the iteration-time parameters. -/
structure MotionPredictionDataset where
  feature_producer : Scene → Transform2D → List (String × ExampleValue)
  transform_ground_truth_to_agent_frame : Bool
  trajectory_tags_filter : List String → Bool
  scene_file_paths : List String

/-- `MotionPredictionDataset.__init__`: when
`pre_filtered_scene_file_paths` is supplied the path list is taken as
given and the scene tags file is never read; otherwise the paths listed
under the dataset root are filtered through `_filter_paths`.
`all_file_paths` stands for `get_file_paths(dataset_path)` and
`tagLines` for the contents of `scene_tags_fpath`. -/
def mkMotionPredictionDataset {T E : Type} (parse : String → Except E T)
    (all_file_paths : List String) (tagLines : List String)
    (feature_producer : Scene → Transform2D → List (String × ExampleValue))
    (transform_ground_truth_to_agent_frame : Bool)
    (scene_tags_filter : Option (T → Bool))
    (trajectory_tags_filter : Option (List String → Bool))
    (pre_filtered_scene_file_paths : Option (List String)) :
    Except (FilterError E) MotionPredictionDataset :=
  let ttf := callable_or_trivial_filter trajectory_tags_filter
  match pre_filtered_scene_file_paths with
  | some l =>
      .ok { feature_producer := feature_producer
            transform_ground_truth_to_agent_frame :=
              transform_ground_truth_to_agent_frame
            trajectory_tags_filter := ttf
            scene_file_paths := l }
  | none =>
      match filter_paths parse (callable_or_trivial_filter scene_tags_filter)
          all_file_paths tagLines with
      | .error e => .error e
      | .ok fp =>
          .ok { feature_producer := feature_producer
                transform_ground_truth_to_agent_frame :=
                  transform_ground_truth_to_agent_frame
                trajectory_tags_filter := ttf
                scene_file_paths := fp }

/-- `MotionPredictionDataset.num_scenes`. -/
def num_scenes (d : MotionPredictionDataset) : Nat :=
  d.scene_file_paths.length

/-- One full single-worker iteration of the dataset (the
`worker_info is None` branch of `__iter__`). -/
def datasetIter (d : MotionPredictionDataset) (loadScene : String → Scene) :
    List (List (String × ExampleValue)) :=
  data_gen d.trajectory_tags_filter d.feature_producer
    d.transform_ground_truth_to_agent_frame loadScene d.scene_file_paths

/-! ### `sdc/constants.py` — the shipped renderer configuration -/

/-- `time_grid_params` of a renderer group: first/last timestamps into
the past and the grid step.  Python integers, so `Int`. -/
structure TimeGridParams where
  start : Int
  stop : Int
  step : Int
deriving DecidableEq, Repr

/-- One entry of a group's `renderers` list: an entity class mapped to
its ordered layer names. -/
structure RendererItem where
  entity : String
  layers : List String
deriving DecidableEq, Repr

/-- One element of `renderers_groups`. -/
structure RendererGroup where
  time_grid_params : TimeGridParams
  renderers : List RendererItem
deriving DecidableEq, Repr

/-- `feature_map_params` of `RENDERER_CONFIG`. -/
structure FeatureMapParams where
  rows : Int
  cols : Int
  resolution : ℚ
deriving DecidableEq, Repr

/-- The whole `RENDERER_CONFIG` dictionary. -/
structure RendererConfig where
  feature_map_params : FeatureMapParams
  renderers_groups : List RendererGroup
deriving DecidableEq, Repr

/-- The `RENDERER_CONFIG` literal of `sdc/constants.py`. -/
def RENDERER_CONFIG : RendererConfig :=
  { feature_map_params := { rows := 400, cols := 400, resolution := 1 / 4 }
    renderers_groups :=
      [ { time_grid_params := { start := 0, stop := 0, step := 1 }
          renderers :=
            [ { entity := "vehicles"
                layers := ["occupancy", "velocity", "acceleration", "yaw"] }
            , { entity := "pedestrians"
                layers := ["occupancy", "velocity"] } ] }
      , { time_grid_params := { start := 0, stop := 0, step := 1 }
          renderers :=
            [ { entity := "road_graph"
                layers :=
                  [ "crosswalk_occupancy"
                  , "crosswalk_availability"
                  , "lane_availability"
                  , "lane_direction"
                  , "lane_occupancy"
                  , "lane_priority"
                  , "lane_speed_limit"
                  , "road_polygons" ] } ] } ] }

/-- The layers permitted for the pedestrians entity class ("only
occupancy and velocity are available for pedestrians",
`sdc/constants.py`). -/
def PEDESTRIAN_PERMITTED_LAYERS : List String :=
  ["occupancy", "velocity"]

/-! ### Reference descriptions and concrete fixtures used in the
theorems below -/

/-- The accepted indices produced by the enumeration loop when every
record parses: the positions (counted from `k`) whose tag record passes
the filter. -/
def idxList {T : Type} (filt : T → Bool) : List T → Nat → List Nat
  | [], _ => []
  | t :: ts, k =>
      if filt t then k :: idxList filt ts (k + 1) else idxList filt ts (k + 1)

/-- Sequential parsing of a whole line list: the parsed records when
every line parses, the first parse error otherwise. -/
def parseAll {T E : Type} (parse : String → Except E T) :
    List String → Except E (List T)
  | [] => .ok []
  | line :: rest =>
      match parse line with
      | .error e => .error e
      | .ok t =>
          match parseAll parse rest with
          | .error e => .error e
          | .ok ts => .ok (t :: ts)

/-- The consecutive indices `[k, k+1, ..., k+n-1]`. -/
def natRange : Nat → Nat → List Nat
  | _, 0 => []
  | k, n + 1 => k :: natRange (k + 1) n

/-- The spec-side description of scene-tag filtering: the subsequence
of paths whose positionally corresponding tag record satisfies the
predicate (record `i` zipped to path `i`), in original order. -/
def tagFilteredSubsequence {T : Type} (filt : T → Bool)
    (file_paths : List String) (ts : List T) : List String :=
  ((file_paths.zip ts).filter (fun pt => filt pt.2)).map (fun pt => pt.1)

/-- A tiny concrete tag parser used by the concrete instances below:
the strings "0", "1", "2" parse to the corresponding number, anything
else is a parse failure carrying the offending text. -/
def parseDigit (s : String) : Except String Nat :=
  if s = "0" then .ok 0
  else if s = "1" then .ok 1
  else if s = "2" then .ok 2
  else .error s

/-- A present agent state at the given position, identity heading. -/
def stPresent (x y : ℚ) : AgentState :=
  { px := x, py := y, yaw_c := 1, yaw_s := 0, present := true }

/-- An undefined (absent) agent state. -/
def stAbsent : AgentState :=
  { px := 0, py := 0, yaw_c := 1, yaw_s := 0, present := false }

/-- Concrete scene for the skip-invalid scenario: track 0 and track 2
are defined at offset 0 with a defined future, track 1 has no defined
state at offset 0. -/
def trackC0 : Track := { track_id := 0, states := [stPresent 0 0, stPresent 1 1] }

def trackC1 : Track := { track_id := 1, states := [stAbsent, stPresent 2 2] }

def trackC2 : Track := { track_id := 2, states := [stPresent 3 3, stPresent 4 4] }

def reqC0 : PredictionRequest := { track_id := 0, trajectory_tags := ["kMoveForward"] }

def reqC1 : PredictionRequest := { track_id := 1, trajectory_tags := ["kMoveLeft"] }

def reqC2 : PredictionRequest := { track_id := 2, trajectory_tags := ["kUniform"] }

/-- The three-request scene: request 1 references the track with no
defined state at offset 0. -/
def sceneC : Scene :=
  { prediction_requests := [reqC0, reqC1, reqC2]
    tracks := [trackC0, trackC1, trackC2] }

/-- A scene decoder that yields the concrete scene for every path. -/
def loadC : String → Scene := fun _ => sceneC

/-- A concrete feature producer with a single payload key. -/
def producerC : Scene → Transform2D → List (String × ExampleValue) :=
  fun _ _ => [("feature_maps", [])]

/-- A concrete track whose prediction-time heading is the 3-4-5 unit
pair. -/
def trackW : Track :=
  { track_id := 3
    states := [ { px := 2, py := 3, yaw_c := 3 / 5, yaw_s := 4 / 5, present := true }
              , { px := 4, py := 5, yaw_c := 1, yaw_s := 0, present := true } ] }

/-- The dataset value produced by the concrete tag-mode construction
used in the pre-filtered-equivalence instance. -/
def dW : MotionPredictionDataset :=
  { feature_producer := producerC
    transform_ground_truth_to_agent_frame := true
    trajectory_tags_filter := callable_or_trivial_filter none
    scene_file_paths := ["a"] }

/-! ## Lemmas about the Python `dict` model -/

theorem find?_map_replace {V : Type} (k k' : String) (v : V) (d : List (String × V))
    (hne : k' ≠ k) :
    (d.map (fun p => if p.1 == k then (k, v) else p)).find? (fun p => p.1 == k')
      = d.find? (fun p => p.1 == k') := by
  have hkk' : (k == k') = false := beq_eq_false_iff_ne.mpr (fun h => hne h.symm)
  induction d with
  | nil => rfl
  | cons p rest ih =>
      rw [List.map_cons]
      cases hpk : (p.1 == k) with
      | true =>
          have hp : p.1 = k := by simpa using hpk
          have hpk' : (p.1 == k') = false :=
            beq_eq_false_iff_ne.mpr (fun h => hne (h.symm.trans hp))
          rw [if_pos rfl]
          simp only [List.find?]
          rw [show ((k, v).1 == k') = false from hkk', hpk', ih]
      | false =>
          rw [if_neg Bool.false_ne_true]
          simp only [List.find?]
          cases hq : (p.1 == k') with
          | true => rfl
          | false => rw [ih]

theorem find?_map_replace_self {V : Type} (k : String) (v : V) (d : List (String × V))
    (hany : d.any (fun p => p.1 == k) = true) :
    (d.map (fun p => if p.1 == k then (k, v) else p)).find? (fun p => p.1 == k)
      = some (k, v) := by
  induction d with
  | nil => simp at hany
  | cons p rest ih =>
      rw [List.map_cons]
      cases hpk : (p.1 == k) with
      | true =>
          rw [if_pos rfl]
          simp only [List.find?]
          rw [show ((k, v).1 == k) = true from by simp]
      | false =>
          have hrest : rest.any (fun p => p.1 == k) = true := by
            simpa [List.any_cons, hpk] using hany
          rw [if_neg Bool.false_ne_true]
          simp only [List.find?]
          rw [hpk, ih hrest]

theorem pyDictGet_insert_self {V : Type} (d : List (String × V)) (k : String) (v : V) :
    pyDictGet (pyDictInsert d k v) k = some v := by
  unfold pyDictGet pyDictInsert
  by_cases hany : d.any (fun p => p.1 == k) = true
  · rw [if_pos hany, find?_map_replace_self k v d hany]
    rfl
  · rw [if_neg hany, List.find?_append]
    have hnone : d.find? (fun p => p.1 == k) = none := by
      rw [List.find?_eq_none]
      intro x hx
      by_contra hcon
      exact hany (List.any_eq_true.mpr ⟨x, hx, by simpa using hcon⟩)
    rw [hnone]
    simp [List.find?]

theorem pyDictGet_insert_other {V : Type} (d : List (String × V)) (k k' : String)
    (v : V) (hne : k' ≠ k) :
    pyDictGet (pyDictInsert d k v) k' = pyDictGet d k' := by
  unfold pyDictGet pyDictInsert
  by_cases hany : d.any (fun p => p.1 == k) = true
  · rw [if_pos hany, find?_map_replace k k' v d hne]
  · rw [if_neg hany, List.find?_append]
    have hkk' : (k == k') = false := beq_eq_false_iff_ne.mpr (fun h => hne h.symm)
    cases hd : d.find? (fun p => p.1 == k') with
    | some q => rfl
    | none => simp [List.find?, hkk']

theorem pyDictGet_update_absent {V : Type} (other : List (String × V)) (k : String) :
    ∀ d : List (String × V), other.find? (fun p => p.1 == k) = none →
      pyDictGet (pyDictUpdate d other) k = pyDictGet d k := by
  induction other with
  | nil => intro d _; rfl
  | cons p rest ih =>
      intro d hnone
      have hall := List.find?_eq_none.mp hnone
      have hp : ¬ ((p.1 == k) = true) := hall p (List.mem_cons_self p rest)
      have hrest : rest.find? (fun q => q.1 == k) = none :=
        List.find?_eq_none.mpr (fun x hx => hall x (List.mem_cons_of_mem p hx))
      have hne : k ≠ p.1 := fun h => hp (by simp [h])
      calc pyDictGet (pyDictUpdate d (p :: rest)) k
          = pyDictGet (pyDictUpdate (pyDictInsert d p.1 p.2) rest) k := rfl
        _ = pyDictGet (pyDictInsert d p.1 p.2) k := ih _ hrest
        _ = pyDictGet d k := pyDictGet_insert_other d p.1 k p.2 hne

theorem pyDictGet_update_found {V : Type} (other : List (String × V)) (k : String)
    (v : V) :
    ∀ d : List (String × V), (other.map Prod.fst).Nodup →
      pyDictGet other k = some v →
      pyDictGet (pyDictUpdate d other) k = some v := by
  induction other with
  | nil => intro d _ hv; simp [pyDictGet] at hv
  | cons p rest ih =>
      intro d hnodup hv
      rw [List.map_cons] at hnodup
      obtain ⟨hnotin, hnodup'⟩ := List.nodup_cons.mp hnodup
      cases hpk : (p.1 == k) with
      | true =>
          have hp : p.1 = k := by simpa using hpk
          have hveq : v = p.2 := by
            simp [pyDictGet, List.find?, hpk] at hv
            exact hv.symm
          have hrestnone : rest.find? (fun q => q.1 == k) = none := by
            rw [List.find?_eq_none]
            intro q hq hqk
            have hq1 : q.1 = k := by simpa using hqk
            apply hnotin
            have hmem := List.mem_map_of_mem Prod.fst hq
            rwa [show Prod.fst q = q.1 from rfl, hq1, ← hp] at hmem
          calc pyDictGet (pyDictUpdate d (p :: rest)) k
              = pyDictGet (pyDictUpdate (pyDictInsert d p.1 p.2) rest) k := rfl
            _ = pyDictGet (pyDictInsert d p.1 p.2) k :=
                pyDictGet_update_absent rest k _ hrestnone
            _ = some v := by rw [hp, pyDictGet_insert_self, hveq]
      | false =>
          have hv' : pyDictGet rest k = some v := by
            unfold pyDictGet at hv ⊢
            simp only [List.find?, hpk] at hv
            exact hv
          exact ih _ hnodup' hv'

/-! ## Claim theorems -/

/-- C10: the result mapping of `data_gen` is built by inserting
`'ground_truth_trajectory'` first and then merging in the feature
producer's entire output with `dict.update`; when the producer output
also contains that key, the producer's value silently replaces the
computed (optionally agent-frame-transformed) trajectory, and the
assembly never fails. -/
theorem producer_key_collision
    (feature_producer : Scene → Transform2D → List (String × ExampleValue))
    (flag : Bool) (scene : Scene) (request : PredictionRequest) (v : ExampleValue)
    (hnodup : ((feature_producer scene (get_to_track_frame_transform
        (get_track_for_transform scene request.track_id))).map Prod.fst).Nodup)
    (hv : pyDictGet (feature_producer scene (get_to_track_frame_transform
        (get_track_for_transform scene request.track_id)))
        "ground_truth_trajectory" = some v) :
    pyDictGet (buildExample feature_producer flag scene request)
      "ground_truth_trajectory" = some v := by
  unfold buildExample
  exact pyDictGet_update_found _ _ _ _ hnodup hv

/-- A feature producer that illegally emits the
`ground_truth_trajectory` key itself. -/
def producerClash : Scene → Transform2D → List (String × ExampleValue) :=
  fun _ _ => [("ground_truth_trajectory", [(9, 9)])]

theorem producer_key_collision_witness :
    (((producerClash sceneC (get_to_track_frame_transform
        (get_track_for_transform sceneC reqC0.track_id))).map Prod.fst).Nodup)
    ∧ pyDictGet (buildExample producerClash true sceneC reqC0)
        "ground_truth_trajectory" = some [((9 : ℚ), (9 : ℚ))] :=
  ⟨by decide, producer_key_collision producerClash true sceneC reqC0
      [((9 : ℚ), (9 : ℚ))] (by decide) rfl⟩

theorem applyTf_inverseTf (T : Transform2D) (hT : T.c ^ 2 + T.s ^ 2 = 1)
    (p : ℚ × ℚ) : applyTf (inverseTf T) (applyTf T p) = p := by
  obtain ⟨x, y⟩ := p
  simp only [applyTf, inverseTf, Prod.mk.injEq]
  constructor
  · linear_combination x * hT
  · linear_combination y * hT

theorem track_frame_unit (track : Track)
    (h : (state0 track).yaw_c ^ 2 + (state0 track).yaw_s ^ 2 = 1) :
    (get_to_track_frame_transform track).c ^ 2
      + (get_to_track_frame_transform track).s ^ 2 = 1 := by
  simp only [get_to_track_frame_transform]
  ring_nf
  ring_nf at h
  linarith [h]

/-- C8: for every track whose prediction-time heading is a genuine
rotation, the agent-frame transform round-trips every point through its
inverse exactly (hence within any floating-point tolerance), and
applying a transform to a point sequence preserves the sequence's count
and per-index content (hence its order), for sequences of any length
including zero and one. -/
theorem transform_round_trip (track : Track) (p : ℚ × ℚ) (ps : List (ℚ × ℚ))
    (T : Transform2D) (j : Nat)
    (h : (state0 track).yaw_c ^ 2 + (state0 track).yaw_s ^ 2 = 1) :
    applyTf (inverseTf (get_to_track_frame_transform track))
        (applyTf (get_to_track_frame_transform track) p) = p
    ∧ (transform2dpoints ps T).length = ps.length
    ∧ (transform2dpoints ps T).get? j = (ps.get? j).map (applyTf T) := by
  refine ⟨applyTf_inverseTf _ (track_frame_unit track h) p, ?_, ?_⟩
  · simp [transform2dpoints]
  · simp [transform2dpoints, List.get?_map]

theorem transform_round_trip_witness :
    ((state0 trackW).yaw_c ^ 2 + (state0 trackW).yaw_s ^ 2 = 1)
    ∧ applyTf (inverseTf (get_to_track_frame_transform trackW))
        (applyTf (get_to_track_frame_transform trackW) ((1 : ℚ), (2 : ℚ)))
        = ((1 : ℚ), (2 : ℚ))
    ∧ (transform2dpoints [((0 : ℚ), (0 : ℚ)), (1, 1)]
        (Transform2D.mk 1 0 5 6)).length = 2
    ∧ (transform2dpoints [((0 : ℚ), (0 : ℚ)), (1, 1)]
        (Transform2D.mk 1 0 5 6)).get? 1
        = some (applyTf (Transform2D.mk 1 0 5 6) (1, 1)) := by
  have hu : (state0 trackW).yaw_c ^ 2 + (state0 trackW).yaw_s ^ 2 = 1 := by
    norm_num [state0, trackW, List.getD]
  obtain ⟨h1, h2, h3⟩ :=
    transform_round_trip trackW (1, 2) [((0 : ℚ), (0 : ℚ)), (1, 1)]
      (Transform2D.mk 1 0 5 6) 1 hu
  exact ⟨hu, h1, h2, by rw [h3]; rfl⟩

/-- C9: every renderer group of the shipped `RENDERER_CONFIG` satisfies
the time-grid invariant `0 ≤ start ≤ stop` and `step ≥ 1`, and every
layer named for the pedestrians entity class is one of that class's
permitted layers (only occupancy and velocity — never yaw or
acceleration). -/
theorem renderer_config_invariant :
    (RENDERER_CONFIG.renderers_groups.all (fun g =>
        decide (0 ≤ g.time_grid_params.start) &&
        decide (g.time_grid_params.start ≤ g.time_grid_params.stop) &&
        decide (1 ≤ g.time_grid_params.step)) = true)
    ∧ (RENDERER_CONFIG.renderers_groups.all (fun g =>
        g.renderers.all (fun r =>
          r.entity != "pedestrians" ||
          r.layers.all (fun l =>
            PEDESTRIAN_PERMITTED_LAYERS.contains l &&
            l != "yaw" && l != "acceleration"))) = true) :=
  ⟨by decide, by decide⟩

/-- C4: with more workers than scenes (`W > N`), the sharding operation
has one explicitly defined outcome: `chunk = N // W = 0` makes
`list(range(0, N, 0))` raise the same error for every worker id, a
deterministic clean failure rather than an arbitrary one (no worker
ever receives a wrong shard). -/
theorem degenerate_sharding (paths : List String) (W w : Nat)
    (h1 : 1 ≤ W) (h2 : paths.length < W) :
    split_filepaths_by_worker paths w W = .error .zeroStep := by
  have hW : ¬ (W = 0) := by omega
  have hchunk : paths.length / W = 0 := Nat.div_eq_of_lt h2
  simp [split_filepaths_by_worker, hW, hchunk]

theorem degenerate_sharding_witness :
    split_filepaths_by_worker ["a"] 0 2 = .error .zeroStep
    ∧ split_filepaths_by_worker ["a"] 1 2 = .error .zeroStep :=
  ⟨degenerate_sharding ["a"] 2 0 (by decide) (by decide),
   degenerate_sharding ["a"] 2 1 (by decide) (by decide)⟩

theorem filterMap_two_tests {R B : Type} (a b : R → Bool) (g : R → B)
    (l : List R) :
    l.filterMap (fun r =>
        if !(a r) then none else if !(b r) then none else some (g r))
      = (l.filter (fun r => a r && b r)).map g := by
  induction l with
  | nil => rfl
  | cons r rest ih =>
      cases ha : a r with
      | false =>
          rw [List.filterMap_cons_none (by simp [ha]),
            List.filter_cons_of_neg (by simp [ha]), ih]
      | true =>
          cases hb : b r with
          | false =>
              rw [List.filterMap_cons_none (by simp [ha, hb]),
                List.filter_cons_of_neg (by simp [ha, hb]), ih]
          | true =>
              rw [@List.filterMap_cons_some R B
                  (fun r => if !(a r) then none
                    else if !(b r) then none else some (g r)) r rest (g r)
                  (by simp [ha, hb]),
                List.filter_cons_of_pos (by simp [ha, hb]), List.map_cons, ih]

/-- C2: the driver yields, per scene in shard order and per request in
within-scene order, exactly one example for each request that passes
both the validator and the trajectory-tags predicate, silently skipping
the others; in particular the concrete three-request scene whose
request 1 references a track with no defined state at offset 0 yields
exactly 2 examples, for requests 0 then 2 in that order. -/
theorem skip_invalid_iteration_order :
    (∀ (filt : List String → Bool)
       (producer : Scene → Transform2D → List (String × ExampleValue))
       (flag : Bool) (load : String → Scene) (paths : List String),
       data_gen filt producer flag load paths =
         ((paths.map load).map (fun scene =>
           (scene.prediction_requests.filter (fun r =>
               request_is_valid scene r && filt (get_tags_from_request r))).map
             (buildExample producer flag scene))).flatten)
    ∧ data_gen trivial_filter producerC true loadC ["scene_file"]
        = [ buildExample producerC true sceneC reqC0
          , buildExample producerC true sceneC reqC2 ]
    ∧ (data_gen trivial_filter producerC true loadC ["scene_file"]).length = 2 := by
  refine ⟨?_, rfl, rfl⟩
  intro filt producer flag load paths
  simp only [data_gen, filterMap_two_tests]

/-! ## Lemmas about the scene tag index -/

theorem parseAll_length {T E : Type} (parse : String → Except E T) :
    ∀ (lines : List String) (ts : List T),
      parseAll parse lines = .ok ts → ts.length = lines.length := by
  intro lines
  induction lines with
  | nil =>
      intro ts h
      unfold parseAll at h
      injection h with h'
      rw [← h']
      rfl
  | cons line rest ih =>
      intro ts h
      unfold parseAll at h
      cases hp : parse line with
      | error e => rw [hp] at h; cases h
      | ok t =>
          rw [hp] at h
          cases hr : parseAll parse rest with
          | error e => rw [hr] at h; cases h
          | ok ts' =>
              rw [hr] at h
              cases h
              simp [ih ts' hr]

theorem collectValidIndices_ok {T E : Type} (parse : String → Except E T)
    (filt : T → Bool) :
    ∀ (lines : List String) (ts : List T) (k : Nat),
      parseAll parse lines = .ok ts →
      collectValidIndices parse filt lines k = .ok (idxList filt ts k) := by
  intro lines
  induction lines with
  | nil =>
      intro ts k h
      unfold parseAll at h
      injection h with h'
      rw [← h']
      rfl
  | cons line rest ih =>
      intro ts k h
      unfold parseAll at h
      cases hp : parse line with
      | error e => rw [hp] at h; cases h
      | ok t =>
          rw [hp] at h
          cases hr : parseAll parse rest with
          | error e => rw [hr] at h; cases h
          | ok ts' =>
              rw [hr] at h
              cases h
              unfold collectValidIndices
              rw [hp, ih ts' (k + 1) hr]
              cases hf : filt t <;> simp [idxList, hf]

theorem collectValidIndices_error {T E : Type} (parse : String → Except E T)
    (filt : T → Bool) :
    ∀ (pre : List String) (line : String) (post : List String) (e : E)
      (ts : List T) (k : Nat),
      parseAll parse pre = .ok ts → parse line = .error e →
      collectValidIndices parse filt (pre ++ line :: post) k = .error e := by
  intro pre
  induction pre with
  | nil =>
      intro line post e ts k _ hline
      simp only [List.nil_append]
      unfold collectValidIndices
      rw [hline]
  | cons l0 rest ih =>
      intro line post e ts k h hline
      unfold parseAll at h
      cases hp : parse l0 with
      | error e0 => rw [hp] at h; cases h
      | ok t0 =>
          rw [hp] at h
          cases hr : parseAll parse rest with
          | error e0 => rw [hr] at h; cases h
          | ok ts' =>
              simp only [List.cons_append]
              unfold collectValidIndices
              rw [hp, ih line post e ts' (k + 1) hr hline]

theorem buildFilteredList_idxList {T E : Type} (filt : T → Bool)
    (file_paths : List String) :
    ∀ (ts : List T) (suffix : List String) (k : Nat),
      (∀ j, file_paths.get? (k + j) = suffix.get? j) →
      ts.length ≤ suffix.length →
      @buildFilteredList E file_paths (idxList filt ts k)
        = .ok (tagFilteredSubsequence filt suffix ts) := by
  intro ts
  induction ts with
  | nil =>
      intro suffix k _ _
      simp [idxList, buildFilteredList, tagFilteredSubsequence]
  | cons t ts' ih =>
      intro suffix k hget hlen
      cases suffix with
      | nil => simp at hlen
      | cons s0 suffix' =>
          have h0 : file_paths.get? k = some s0 := by
            have := hget 0
            simpa using this
          have hget' : ∀ j, file_paths.get? (k + 1 + j) = suffix'.get? j := by
            intro j
            have := hget (j + 1)
            rw [show k + (j + 1) = k + 1 + j from by omega] at this
            simpa using this
          have hlen' : ts'.length ≤ suffix'.length := by
            simp at hlen
            omega
          have hrec := ih suffix' (k + 1) hget' hlen'
          cases hf : filt t with
          | true =>
              rw [show idxList filt (t :: ts') k = k :: idxList filt ts' (k + 1)
                from by simp [idxList, hf]]
              unfold buildFilteredList
              rw [h0, hrec]
              rw [show tagFilteredSubsequence filt (s0 :: suffix') (t :: ts')
                  = s0 :: tagFilteredSubsequence filt suffix' ts'
                from by simp [tagFilteredSubsequence, List.filter_cons, hf]]
          | false =>
              rw [show idxList filt (t :: ts') k = idxList filt ts' (k + 1)
                from by simp [idxList, hf]]
              rw [hrec]
              rw [show tagFilteredSubsequence filt (s0 :: suffix') (t :: ts')
                  = tagFilteredSubsequence filt suffix' ts'
                from by simp [tagFilteredSubsequence, List.filter_cons, hf]]

theorem idxList_trivial {T : Type} :
    ∀ (ts : List T) (k : Nat), idxList trivial_filter ts k = natRange k ts.length := by
  intro ts
  induction ts with
  | nil => intro k; rfl
  | cons t ts' ih => intro k; simp [idxList, trivial_filter, natRange, ih]

theorem buildFilteredList_natRange_err {E : Type} (file_paths : List String) :
    ∀ (n k : Nat), k ≤ file_paths.length → file_paths.length < k + n →
      @buildFilteredList E file_paths (natRange k n)
        = .error (.indexError file_paths.length) := by
  intro n
  induction n with
  | zero => intro k h1 h2; omega
  | succ n ih =>
      intro k h1 h2
      by_cases hk : k < file_paths.length
      · cases hg : file_paths.get? k with
        | none =>
            have := List.get?_eq_none.mp hg
            omega
        | some p =>
            rw [show natRange k (n + 1) = k :: natRange (k + 1) n from rfl]
            unfold buildFilteredList
            rw [hg, ih (k + 1) (by omega) (by omega)]
      · have hk' : k = file_paths.length := by omega
        have hg : file_paths.get? k = none := List.get?_eq_none.mpr (by omega)
        rw [show natRange k (n + 1) = k :: natRange (k + 1) n from rfl]
        unfold buildFilteredList
        rw [hg, hk']

theorem filter_paths_ok_of_le {T E : Type} (parse : String → Except E T)
    (filt : T → Bool) (file_paths tagLines : List String) (ts : List T)
    (hparse : parseAll parse tagLines = .ok ts)
    (hle : ts.length ≤ file_paths.length) :
    filter_paths parse filt file_paths tagLines
      = .ok (tagFilteredSubsequence filt file_paths ts) := by
  unfold filter_paths
  rw [collectValidIndices_ok parse filt tagLines ts 0 hparse]
  exact buildFilteredList_idxList filt file_paths ts file_paths 0
    (fun j => by simp) hle

theorem tagFilteredSubsequence_trivial {T : Type} (file_paths : List String)
    (ts : List T) (hlen : file_paths.length ≤ ts.length) :
    tagFilteredSubsequence (callable_or_trivial_filter none) file_paths ts
      = file_paths := by
  unfold tagFilteredSubsequence callable_or_trivial_filter trivial_filter
  rw [show ((file_paths.zip ts).filter fun pt => true)
      = (file_paths.zip ts).filter (fun pt => true) from rfl]
  rw [List.filter_true]
  rw [show (fun pt : String × T => pt.1) = Prod.fst from rfl]
  exact List.map_fst_zip file_paths ts hlen

/-- C5: with N paths and N parsed tag records, `_filter_paths` returns
exactly the subsequence of paths whose positionally corresponding tag
record satisfies the caller-supplied predicate, preserving the original
relative order (a sublist of the path list); with the default
accept-all predicate the result is the full path list unchanged. -/
theorem tag_filter_order_preserving {T E : Type} (parse : String → Except E T)
    (filt : T → Bool) (file_paths tagLines : List String) (ts : List T)
    (hparse : parseAll parse tagLines = .ok ts)
    (hlen : tagLines.length = file_paths.length) :
    filter_paths parse filt file_paths tagLines
        = .ok (tagFilteredSubsequence filt file_paths ts)
    ∧ (tagFilteredSubsequence filt file_paths ts).Sublist file_paths
    ∧ filter_paths parse (callable_or_trivial_filter none) file_paths tagLines
        = .ok file_paths := by
  have hts : ts.length = tagLines.length := parseAll_length parse tagLines ts hparse
  have hle : ts.length ≤ file_paths.length := by omega
  refine ⟨filter_paths_ok_of_le parse filt file_paths tagLines ts hparse hle, ?_, ?_⟩
  · unfold tagFilteredSubsequence
    have h1 : ((file_paths.zip ts).filter (fun pt => filt pt.2)).Sublist
        (file_paths.zip ts) := List.filter_sublist _
    have h3 := List.Sublist.map Prod.fst h1
    rw [List.map_fst_zip file_paths ts (by omega)] at h3
    rw [show (fun pt : String × T => pt.1) = Prod.fst from rfl]
    exact h3
  · rw [filter_paths_ok_of_le parse _ file_paths tagLines ts hparse hle,
      tagFilteredSubsequence_trivial file_paths ts (by omega)]

theorem tag_filter_order_preserving_witness :
    filter_paths parseDigit (fun n => n % 2 == 0) ["a", "b", "c"] ["0", "1", "2"]
        = .ok ["a", "c"]
    ∧ filter_paths parseDigit (callable_or_trivial_filter none) ["a", "b", "c"]
        ["0", "1", "2"] = .ok ["a", "b", "c"] := by
  obtain ⟨h1, _, h3⟩ := tag_filter_order_preserving parseDigit (fun n => n % 2 == 0)
    ["a", "b", "c"] ["0", "1", "2"] [0, 1, 2] (by decide) (by decide)
  exact ⟨h1.trans (by decide), h3⟩

/-- C6: a tag record that fails to parse — the record at position
`pre.length`, the first failing one — fails the whole indexing
operation with that record's parse error; no partial or best-effort
filtered path list is produced. -/
theorem tag_parse_failure_atomic {T E : Type} (parse : String → Except E T)
    (filt : T → Bool) (file_paths : List String)
    (pre : List String) (line : String) (post : List String)
    (ts : List T) (e : E)
    (hpre : parseAll parse pre = .ok ts) (hline : parse line = .error e) :
    filter_paths parse filt file_paths (pre ++ line :: post)
      = .error (.parseError e) := by
  unfold filter_paths
  rw [collectValidIndices_error parse filt pre line post e ts 0 hpre hline]

theorem tag_parse_failure_atomic_witness :
    filter_paths parseDigit trivial_filter ["a", "b", "c"] ["0", "x", "2"]
      = .error (.parseError "x") :=
  tag_parse_failure_atomic parseDigit trivial_filter ["a", "b", "c"]
    ["0"] "x" ["2"] [0] "x" (by decide) (by decide)

/-- C3 counterexample: with one path, a two-record tag file whose
records all parse and the accept-all filter, `_filter_paths` raises an
`IndexError` at index 1 — it does not silently truncate to the shorter
of the two lists. -/
theorem tagfile_longer_counterexample :
    filter_paths parseDigit trivial_filter ["a"] ["0", "1"]
      = .error (.indexError 1)
    ∧ filter_paths parseDigit trivial_filter ["a"] ["0", "1"] ≠ .ok ["a"] :=
  ⟨by decide, by decide⟩

/-- C3 amended: when the tag file has at most as many records as there
are paths, filtering silently truncates to the record count
(positionally zipping record i to path i); when it has more records
than paths, it does not truncate — with the default accept-all filter
the operation fails with an `IndexError` at the path count. -/
theorem tag_length_mismatch {T E : Type} (parse : String → Except E T)
    (filt : T → Bool) (file_paths tagLines : List String) (ts : List T)
    (hparse : parseAll parse tagLines = .ok ts) :
    (ts.length ≤ file_paths.length →
       filter_paths parse filt file_paths tagLines
         = .ok (tagFilteredSubsequence filt file_paths ts))
    ∧ (file_paths.length < ts.length →
       filter_paths parse (callable_or_trivial_filter none) file_paths tagLines
         = .error (.indexError file_paths.length)) := by
  constructor
  · intro hle
    exact filter_paths_ok_of_le parse filt file_paths tagLines ts hparse hle
  · intro hlt
    unfold filter_paths
    rw [collectValidIndices_ok parse _ tagLines ts 0 hparse]
    rw [show callable_or_trivial_filter (none : Option (T → Bool))
        = trivial_filter from rfl]
    rw [idxList_trivial ts 0]
    exact buildFilteredList_natRange_err file_paths ts.length 0 (by omega) (by omega)

theorem tag_length_mismatch_witness :
    filter_paths parseDigit trivial_filter ["a", "b", "c"] ["0", "1"]
        = .ok ["a", "b"]
    ∧ filter_paths parseDigit (callable_or_trivial_filter none) ["a"] ["0", "1"]
        = .error (.indexError 1) := by
  obtain ⟨h1, _⟩ := tag_length_mismatch parseDigit trivial_filter ["a", "b", "c"]
    ["0", "1"] [0, 1] (by decide)
  obtain ⟨_, h2⟩ := tag_length_mismatch parseDigit trivial_filter ["a"]
    ["0", "1"] [0, 1] (by decide)
  exact ⟨(h1 (by decide)).trans (by decide), h2 (by decide)⟩

/-! ## Sharding lemmas -/

theorem rangeStep0_get? (stop step w : Nat) (hstep : 1 ≤ step)
    (hw : w * step < stop) :
    (rangeStep0 stop step).get? w = some (w * step) := by
  unfold rangeStep0
  rw [List.get?_map]
  have hwlt : w < (stop + step - 1) / step := by
    have h1 : w + 1 ≤ (stop + step - 1) / step := by
      rw [Nat.le_div_iff_mul_le (show 0 < step by omega)]
      have hexp : (w + 1) * step = w * step + step := by ring
      omega
    omega
  rw [List.get?_range hwlt]
  rfl

theorem pySlice_join (paths : List String) (c : Nat) :
    ∀ m, ((List.range m).map (fun w =>
        pySlice paths (w * c) ((w + 1) * c))).flatten = paths.take (m * c) := by
  intro m
  induction m with
  | zero => simp
  | succ m ih =>
      rw [List.range_succ, List.map_append, List.flatten_append, ih]
      simp only [List.map_cons, List.map_nil, List.flatten_cons, List.flatten_nil,
        List.append_nil]
      rw [show pySlice paths (m * c) ((m + 1) * c) = (paths.drop (m * c)).take c
        from by
          unfold pySlice
          rw [show (m + 1) * c - m * c = c from by
            have hexp : (m + 1) * c = m * c + c := by ring
            omega]]
      rw [show (m + 1) * c = m * c + c from by ring, List.take_add]

/-- C1: for `N ≥ 1` paths and `1 ≤ W ≤ N` workers with
`chunk = N // W`, worker `w < W-1` receives exactly the slice
`[w*chunk, (w+1)*chunk)`, the last worker receives
`[(W-1)*chunk, N)`, every non-last shard has exactly `chunk` elements,
the index ranges are pairwise disjoint, and the concatenation of all
shards in worker order is the whole path list (no overlap, no gap). -/
theorem sharding_partition (paths : List String) (W : Nat)
    (h1 : 1 ≤ W) (h2 : W ≤ paths.length) :
    (∀ w, w < W - 1 →
        split_filepaths_by_worker paths w W
          = .ok (pySlice paths (w * (paths.length / W))
              ((w + 1) * (paths.length / W))))
    ∧ split_filepaths_by_worker paths (W - 1) W
        = .ok (pySlice paths ((W - 1) * (paths.length / W)) paths.length)
    ∧ (∀ w, w < W - 1 →
        (pySlice paths (w * (paths.length / W))
          ((w + 1) * (paths.length / W))).length = paths.length / W)
    ∧ (∀ w1 w2, w1 < w2 →
        (w1 + 1) * (paths.length / W) ≤ w2 * (paths.length / W))
    ∧ ((List.range (W - 1)).map (fun w =>
          pySlice paths (w * (paths.length / W))
            ((w + 1) * (paths.length / W)))).flatten
        ++ pySlice paths ((W - 1) * (paths.length / W)) paths.length
        = paths := by
  have hW0 : ¬ (W = 0) := by omega
  have hc1 : 1 ≤ paths.length / W :=
    (Nat.one_le_div_iff (show 0 < W by omega)).mpr h2
  have hc0 : ¬ (paths.length / W = 0) := by omega
  have hWc : W * (paths.length / W) ≤ paths.length := by
    have h := Nat.div_mul_le_self paths.length W
    have hcomm : W * (paths.length / W) = paths.length / W * W := Nat.mul_comm _ _
    omega
  have hlt : ∀ w, w ≤ W - 1 → w * (paths.length / W) < paths.length := by
    intro w hw
    have hwc : w * (paths.length / W) ≤ (W - 1) * (paths.length / W) :=
      Nat.mul_le_mul_right _ hw
    have hsum : (W - 1) * (paths.length / W) + paths.length / W
        = (W - 1 + 1) * (paths.length / W) := by ring
    have hW1 : W - 1 + 1 = W := by omega
    rw [hW1] at hsum
    omega
  have hget : ∀ w, w ≤ W - 1 →
      (rangeStep0 paths.length (paths.length / W)).get? w
        = some (w * (paths.length / W)) := by
    intro w hw
    exact rangeStep0_get? _ _ _ hc1 (hlt w hw)
  have hnonlast : ∀ w, w < W - 1 →
      split_filepaths_by_worker paths w W
        = .ok (pySlice paths (w * (paths.length / W))
            ((w + 1) * (paths.length / W))) := by
    intro w hw
    simp only [split_filepaths_by_worker, if_neg hW0, if_neg hc0,
      hget w (by omega), hget (w + 1) (by omega),
      if_neg (show ¬ (w = W - 1) by omega)]
  have hlast : split_filepaths_by_worker paths (W - 1) W
      = .ok (pySlice paths ((W - 1) * (paths.length / W)) paths.length) := by
    simp only [split_filepaths_by_worker, if_neg hW0, if_neg hc0,
      hget (W - 1) le_rfl, if_pos rfl, if_true]
  refine ⟨hnonlast, hlast, ?_, ?_, ?_⟩
  · intro w hw
    unfold pySlice
    rw [List.length_take, List.length_drop]
    have hexp : (w + 1) * (paths.length / W) = w * (paths.length / W)
        + paths.length / W := by ring
    have hle : (w + 1) * (paths.length / W) ≤ paths.length :=
      le_of_lt (hlt (w + 1) (by omega))
    omega
  · intro w1 w2 h
    exact Nat.mul_le_mul_right _ (by omega)
  · rw [pySlice_join paths (paths.length / W) (W - 1)]
    unfold pySlice
    rw [show (paths.drop ((W - 1) * (paths.length / W))).take
          (paths.length - (W - 1) * (paths.length / W))
        = paths.drop ((W - 1) * (paths.length / W))
      from List.take_of_length_le (by rw [List.length_drop])]
    exact List.take_append_drop _ paths

theorem sharding_partition_witness :
    split_filepaths_by_worker ["a", "b", "c", "d", "e"] 0 2 = .ok ["a", "b"]
    ∧ split_filepaths_by_worker ["a", "b", "c", "d", "e"] 1 2
        = .ok ["c", "d", "e"]
    ∧ (pySlice ["a", "b", "c", "d", "e"]
        (0 * (5 / 2)) ((0 + 1) * (5 / 2))).length = 5 / 2 := by
  have h := sharding_partition ["a", "b", "c", "d", "e"] 2 (by decide) (by decide)
  refine ⟨(h.1 0 (by decide)).trans (by decide), ?_, ?_⟩
  · exact (h.2.1).trans (by decide)
  · exact (h.2.2.1 0 (by decide)).trans (by decide)

/-- C7: when tag-filter-mode construction succeeds with effective path
list `L = d.scene_file_paths`, constructing instead with
`pre_filtered_scene_file_paths = L` returns the very same dataset `d`
(hence identical `num_scenes` and identical iteration), for every tag
file, tag parser, root path list and scene-tag filter — the
pre-filtered mode never reads the scene tags file. -/
theorem pre_filtered_equiv {T E : Type} (parse : String → Except E T)
    (all_file_paths tagLines : List String)
    (producer : Scene → Transform2D → List (String × ExampleValue))
    (flag : Bool) (stf : Option (T → Bool))
    (ttf : Option (List String → Bool)) (d : MotionPredictionDataset)
    (h : mkMotionPredictionDataset parse all_file_paths tagLines producer flag
        stf ttf none = .ok d) :
    ∀ (parse' : String → Except E T) (all_file_paths' tagLines' : List String)
      (stf' : Option (T → Bool)),
      mkMotionPredictionDataset parse' all_file_paths' tagLines' producer flag
        stf' ttf (some d.scene_file_paths) = .ok d := by
  intro parse' a' t' stf'
  unfold mkMotionPredictionDataset at h
  cases hfp : filter_paths parse (callable_or_trivial_filter stf)
      all_file_paths tagLines with
  | error e => rw [hfp] at h; cases h
  | ok fp =>
      rw [hfp] at h
      injection h with h'
      rw [← h']
      rfl

theorem pre_filtered_equiv_witness :
    mkMotionPredictionDataset parseDigit ["zzz"] ["junk"] producerC true
      (none : Option (Nat → Bool)) none (some dW.scene_file_paths) = .ok dW :=
  pre_filtered_equiv parseDigit ["a", "b"] ["0", "1"] producerC true
    (some (fun n => n == 0)) none dW rfl parseDigit ["zzz"] ["junk"] none

end Shifts
